import Mathlib

/-!
Verification of the resumable, checkpointed extraction pipeline of the
BCP data warehouse export tool.  The Python sources are shallowly embedded:
records fetched from the upstream API are opaque atoms, the checkpoint JSON
document is a structure, the on-disk checkpoint file is a small inductive
(absent / unparseable / parseable), and the side-effecting export routines
become pure state transformers that additionally emit a trace of observable
events (fetches, durable file appends, checkpoint-marker writes, warnings).
-/

namespace BCPWarehouse

/-- Upstream records are opaque atoms; none of the verified properties
depend on record contents (the JSONL writer's added metadata field is
abstracted away with them). -/
abbrev Rec := Nat

/-- The partial-progress marker stored under one endpoint name in the
checkpoint's partial_progress mapping (see create_checkpoint_callback:
last_page / total_records / timestamp). -/
structure Progress where
  lastPage : Nat
  totalRecords : Nat
  timestamp : String
deriving DecidableEq, Repr

/-- The checkpoint document, mirroring CheckpointManager._create_new_checkpoint
plus the completed_at field written by mark_export_complete. -/
structure Checkpoint where
  startedAt : String
  completedEndpoints : List String
  partialProgress : List (String × Progress)
  lastUpdated : String
  exportComplete : Bool
  completedAt : Option String
deriving DecidableEq, Repr

/-- Python-dict insertion on an association list: overwrite in place when the
key is present, append otherwise (keys stay unique). -/
def dictInsert {α : Type} (k : String) (v : α) :
    List (String × α) → List (String × α)
  | [] => [(k, v)]
  | (k2, v2) :: rest =>
      if k2 = k then (k, v) :: rest else (k2, v2) :: dictInsert k v rest

/-- Python-dict lookup. -/
def dictGet {α : Type} (k : String) : List (String × α) → Option α
  | [] => none
  | (k2, v2) :: rest => if k2 = k then some v2 else dictGet k rest

/-- Python-dict deletion (del d[k]). -/
def dictErase {α : Type} (k : String) : List (String × α) → List (String × α)
  | [] => []
  | (k2, v2) :: rest =>
      if k2 = k then dictErase k rest else (k2, v2) :: dictErase k rest

/-- The checkpoint file on disk: absent, present but unparseable
(truncated / invalid JSON), or a parseable document. -/
inductive DiskFile where
  | absent
  | invalid
  | valid (c : Checkpoint)
deriving DecidableEq, Repr

/-- os-level existence test used by CheckpointManager._load_checkpoint. -/
def fileExists : DiskFile → Bool
  | .absent => false
  | .invalid => true
  | .valid _ => true

/-- The json.load step inside _load_checkpoint: raises (modelled as error)
on an absent or unparseable file. -/
def parseCheckpointFile : DiskFile → Except String Checkpoint
  | .absent => .error "FileNotFoundError"
  | .invalid => .error "JSONDecodeError"
  | .valid c => .ok c

/-- CheckpointManager._create_new_checkpoint. -/
def createNewCheckpoint (now : String) : Checkpoint :=
  { startedAt := now
    completedEndpoints := []
    partialProgress := []
    lastUpdated := now
    exportComplete := false
    completedAt := none }

/-- CheckpointManager._load_checkpoint: if the file exists, try to parse it
and fall back to a fresh document on any exception; otherwise create a fresh
document.  Total by construction: every exception of the parse step is
handled locally, so the caller never sees one. -/
def loadCheckpoint (now : String) (d : DiskFile) : Checkpoint :=
  if fileExists d then
    match parseCheckpointFile d with
    | .ok c => c
    | .error _ => createNewCheckpoint now
  else
    createNewCheckpoint now

/-- The in-memory checkpoint_data together with the durable checkpoint.json
contents. -/
structure CMState where
  mem : Checkpoint
  disk : DiskFile
deriving DecidableEq, Repr

/-- CheckpointManager.__init__ : load (or create) the document; the disk
file itself is untouched until the first save. -/
def initManager (now : String) (d : DiskFile) : CMState :=
  { mem := loadCheckpoint now d, disk := d }

/-- CheckpointManager.save: stamp last_updated, then write the whole
document to checkpoint.json synchronously. -/
def cmSave (now : String) (s : CMState) : CMState :=
  let m := { s.mem with lastUpdated := now }
  { mem := m, disk := .valid m }

/-- CheckpointManager.mark_endpoint_complete: append the endpoint to
completed_endpoints and persist, unless it is already there. -/
def markEndpointComplete (e : String) (now : String) (s : CMState) : CMState :=
  if e ∈ s.mem.completedEndpoints then s
  else
    cmSave now
      { s with mem :=
          { s.mem with completedEndpoints := s.mem.completedEndpoints ++ [e] } }

/-- CheckpointManager.is_endpoint_complete. -/
def isEndpointComplete (e : String) (s : CMState) : Bool :=
  e ∈ s.mem.completedEndpoints

/-- CheckpointManager.save_partial_progress: overwrite the endpoint's marker
and persist. -/
def savePartialProgress (e : String) (p : Progress) (now : String)
    (s : CMState) : CMState :=
  cmSave now
    { s with mem :=
        { s.mem with partialProgress := dictInsert e p s.mem.partialProgress } }

/-- CheckpointManager.get_partial_progress. -/
def getPartialProgress (e : String) (s : CMState) : Option Progress :=
  dictGet e s.mem.partialProgress

/-- CheckpointManager.clear_partial_progress: delete the endpoint's marker
and persist, but only when a marker is present. -/
def clearPartialProgress (e : String) (now : String) (s : CMState) : CMState :=
  if (dictGet e s.mem.partialProgress).isSome then
    cmSave now
      { s with mem :=
          { s.mem with partialProgress := dictErase e s.mem.partialProgress } }
  else s

/-- CheckpointManager.mark_export_complete: set the terminal flag, stamp
completed_at, persist. -/
def markExportComplete (now : String) (s : CMState) : CMState :=
  cmSave now
    { s with mem :=
        { s.mem with exportComplete := true, completedAt := some now } }

/-- One public mutating CheckpointManager operation, for quantifying over
arbitrary operation sequences. -/
inductive CMOp where
  | markComplete (e : String) (now : String)
  | savePartial (e : String) (p : Progress) (now : String)
  | clearPartial (e : String) (now : String)
  | markExport (now : String)
deriving DecidableEq, Repr

/-- Interpret one operation. -/
def applyOp : CMOp → CMState → CMState
  | .markComplete e now, s => markEndpointComplete e now s
  | .savePartial e p now, s => savePartialProgress e p now s
  | .clearPartial e now, s => clearPartialProgress e now s
  | .markExport now, s => markExportComplete now s

/-- Interpret a sequence of operations, left to right. -/
def runOps (ops : List CMOp) (s : CMState) : CMState :=
  ops.foldl (fun t op => applyOp op t) s

/-- What the environment does to the single monolithic _make_request call:
it returns a normalized record list (the data / endpoint-key / bare-array
shapes all normalize to a list), raises a transport-level error, or is hit
by a KeyboardInterrupt while the request is in flight. -/
inductive FetchOutcome where
  | success (records : List Rec)
  | transportError
  | interrupted
deriving DecidableEq, Repr

/-- The exception, if any, escaping a client call. -/
inductive PyErr where
  | transportError
  | keyboardInterrupt
  | unboundLocalError
deriving DecidableEq, Repr

/-- Observable outcome of fully consuming stream_paginated_data: the yielded
batches, the (endpoint, page, total_records) checkpoint-callback invocations
that fired, whether the exact-page-size warning was logged, and the escaping
exception if any. -/
structure StreamResult where
  batches : List (List Rec)
  callbackEvents : List (String × Nat × Nat)
  warned : Bool
  error : Option PyErr
deriving DecidableEq, Repr

/-- LightspeedClient.stream_paginated_data.  The generator forces
params[page_size] := 50000 and deletes params[page], issues one monolithic
request, yields the normalized data as a single batch (nothing when the data
is empty), and only then invokes the checkpoint callback.  The
exactly-at-the-limit warning guard compares total_records with the page_size
it just wrote and additionally requires page_size < 50000.  In the
KeyboardInterrupt handler the code reads the local total_records, which is
unbound when the interrupt lands during the request itself, so with a
callback present the handler raises UnboundLocalError instead of re-raising
the interrupt.  start_page is accepted and ignored (monolithic strategy). -/
def streamPaginatedData (endpoint : String) (params : List (String × Nat))
    (startPage : Nat) (hasCheckpointCallback : Bool)
    (outcome : FetchOutcome) : StreamResult :=
  let params1 := dictInsert "page_size" 50000 (dictErase "page" params)
  let pageSize := (dictGet "page_size" params1).getD 0
  match outcome with
  | .transportError =>
      { batches := [], callbackEvents := [], warned := false
        error := some .transportError }
  | .interrupted =>
      if hasCheckpointCallback then
        { batches := [], callbackEvents := [], warned := false
          error := some .unboundLocalError }
      else
        { batches := [], callbackEvents := [], warned := false
          error := some .keyboardInterrupt }
  | .success data =>
      if data.isEmpty then
        { batches := [], callbackEvents := [], warned := false, error := none }
      else
        let total := data.length
        let warned := total == pageSize && decide (pageSize < 50000)
        let cbs := if hasCheckpointCallback then [(endpoint, 1, total)] else []
        { batches := [data], callbackEvents := cbs, warned := warned
          error := none }

/-- Observable outcome of get_paginated_data: the buffered record list
(none when an exception propagated to the caller) plus the same trace
fields as the stream. -/
structure GetResult where
  records : Option (List Rec)
  callbackEvents : List (String × Nat × Nat)
  warned : Bool
  error : Option PyErr
deriving DecidableEq, Repr

/-- LightspeedClient.get_paginated_data (legacy buffering method): iterate
the streaming generator and extend an accumulator with every yielded page.
An exception escaping the generator propagates (no record list is returned);
callback invocations that already fired are kept in the trace. -/
def getPaginatedData (endpoint : String) (params : List (String × Nat))
    (startPage : Nat) (hasCheckpointCallback : Bool)
    (outcome : FetchOutcome) : GetResult :=
  let s := streamPaginatedData endpoint params startPage hasCheckpointCallback
    outcome
  { records :=
      match s.error with
      | some _ => none
      | none => some (s.batches.foldl (fun acc page => acc ++ page) [])
    callbackEvents := s.callbackEvents
    warned := s.warned
    error := s.error }

/-- One observable pipeline event: an upstream fetch, a durable append of a
batch to an endpoint's output file, a persisted checkpoint partial-progress
marker write (page, total_records), or the suspicious-truncation warning. -/
inductive Ev where
  | fetch (endpoint : String)
  | append (endpoint : String) (records : List Rec)
  | marker (endpoint : String) (page : Nat) (total : Nat)
  | warn (endpoint : String)
deriving DecidableEq, Repr

/-- The endpoint an event concerns. -/
def evEndpoint : Ev → String
  | .fetch e => e
  | .append e _ => e
  | .marker e _ _ => e
  | .warn e => e

/-- Whether an event is a fetch of, or an append for, endpoint e. -/
def fetchesOrAppends (e : String) : Ev → Bool
  | .fetch e2 => e2 == e
  | .append e2 _ => e2 == e
  | _ => false

/-- Scan an event trace left to right and check that every checkpoint-marker
write recording total_records = n for an endpoint is preceded by a durable
append of an n-record batch to that endpoint's file. -/
def markersAfterAppends : List Ev → List (String × Nat) → Bool
  | [], _ => true
  | .append e rs :: rest, seen => markersAfterAppends rest ((e, rs.length) :: seen)
  | .marker e _ total :: rest, seen =>
      seen.contains (e, total) && markersAfterAppends rest seen
  | .fetch _ :: rest, seen => markersAfterAppends rest seen
  | .warn _ :: rest, seen => markersAfterAppends rest seen

/-- The callback built by create_checkpoint_callback: a no-op while the
shutdown flag is set, otherwise it persists a partial-progress marker for the
endpoint.  Returns the new manager state and the marker events written. -/
def checkpointCallback (shutdown : Bool) (now : String) (e : String)
    (page total : Nat) (cm : CMState) : CMState × List Ev :=
  if shutdown then (cm, [])
  else
    (savePartialProgress e { lastPage := page, totalRecords := total
                             timestamp := now } now cm,
     [Ev.marker e page total])

/-- JSONLExporter._append_jsonl: append the records to the endpoint's .jsonl
file in arrival order, creating it on first append; no-op on an empty list. -/
def appendJsonl (e : String) (records : List Rec)
    (files : List (String × List Rec)) : List (String × List Rec) :=
  if records.isEmpty then files
  else dictInsert e ((dictGet e files).getD [] ++ records) files

/-- The whole world of the streaming JSONL pipeline: manager state plus the
per-endpoint .jsonl file contents. -/
structure JsonlWorld where
  cm : CMState
  files : List (String × List Rec)
deriving DecidableEq, Repr

/-- Result of one export_endpoint_streaming call. -/
structure StepResult where
  world : JsonlWorld
  events : List Ev
  success : Bool
deriving DecidableEq, Repr

/-- export_endpoint_streaming (the streaming JSONL orchestrator) driving
JSONLExporter.stream_export_data over client.stream_paginated_data, with the
runtime interleaving of generator and consumer made explicit: the consumer
appends the yielded batch first, and the generator's checkpoint callback only
fires when the consumer asks for the next batch.  A TransportError from the
fetch, and the UnboundLocalError raised by the generator's interrupt handler
(total_records is unbound when the interrupt lands during the request), are
both swallowed by the per-endpoint except clause, yielding failure.  The
page_size forced by the client is 50000, so the suspicious-truncation guard
(total == page_size and page_size < 50000) is evaluated against 50000. -/
def exportEndpointStreaming (e : String) (outcome : FetchOutcome)
    (shutdown : Bool) (now : String) (w : JsonlWorld) : StepResult :=
  if shutdown then ⟨w, [], false⟩
  else if isEndpointComplete e w.cm then ⟨w, [], true⟩
  else
    match outcome with
    | .transportError => ⟨w, [.fetch e], false⟩
    | .interrupted => ⟨w, [.fetch e], false⟩
    | .success data =>
        if data.isEmpty then
          let cm1 := clearPartialProgress e now (markEndpointComplete e now w.cm)
          ⟨⟨cm1, w.files⟩, [.fetch e], true⟩
        else
          let total := data.length
          let warnEvs :=
            if total == 50000 && decide ((50000 : Nat) < 50000) then [Ev.warn e]
            else []
          let files1 := appendJsonl e data w.files
          let cb := checkpointCallback shutdown now e 1 total w.cm
          if shutdown then
            ⟨⟨cb.1, files1⟩,
             [Ev.fetch e] ++ warnEvs ++ [Ev.append e data] ++ cb.2, false⟩
          else
            let cm2 := clearPartialProgress e now (markEndpointComplete e now cb.1)
            ⟨⟨cm2, files1⟩,
             [Ev.fetch e] ++ warnEvs ++ [Ev.append e data] ++ cb.2, true⟩

/-- The per-endpoint loop of export_all_data (JSONL): process endpoints in
order, breaking when the shutdown flag is set.  The flag is a fixed
parameter: no modeled execution flips it (the per-endpoint KeyboardInterrupt
handler that would set it is shadowed by the UnboundLocalError, and signals
outside a fetch are not modeled). -/
def runEndpoints (shutdown : Bool) (outcomes : String → FetchOutcome)
    (now : String) : List String → JsonlWorld → JsonlWorld × List Ev
  | [], w => (w, [])
  | e :: rest, w =>
      if shutdown then (w, [])
      else
        let r := exportEndpointStreaming e (outcomes e) shutdown now w
        let rest2 := runEndpoints shutdown outcomes now rest r.world
        (rest2.1, r.events ++ rest2.2)

/-- export_all_data (JSONL): run every endpoint, then — whenever no shutdown
was requested — unconditionally mark the whole export complete, regardless
of per-endpoint failures. -/
def exportAllData (shutdown : Bool) (outcomes : String → FetchOutcome)
    (now : String) (endpoints : List String) (w : JsonlWorld) :
    JsonlWorld × List Ev :=
  let r := runEndpoints shutdown outcomes now endpoints w
  if shutdown then r
  else ({ r.1 with cm := markExportComplete now r.1.cm }, r.2)

/-- A fresh run: manager initialized over an absent checkpoint file, no
output files yet. -/
def freshJsonlWorld (now : String) : JsonlWorld :=
  { cm := initManager now DiskFile.absent, files := [] }

/-- One line of a CSV file: the header or a data row. -/
inductive CsvLine where
  | header
  | row (r : Rec)
deriving DecidableEq, Repr

/-- CSVExporter._write_csv: no-op on empty data.  Mode is append or write
(truncate); the header is written only when the file is not already there
(always in write mode, and in append mode only when the file does not
exist), followed by the rows. -/
def writeCsv (filename : String) (data : List Rec) (append : Bool)
    (files : List (String × List CsvLine)) : List (String × List CsvLine) :=
  if data.isEmpty then files
  else
    let fileThere := append && (dictGet filename files).isSome
    let base := if append then (dictGet filename files).getD [] else []
    let content :=
      (if fileThere then base else base ++ [CsvLine.header]) ++
        data.map CsvLine.row
    dictInsert filename content files

/-- CSVExporter._init_csv_file: truncate the file to just the header. -/
def initCsvFile (filename : String)
    (files : List (String × List CsvLine)) : List (String × List CsvLine) :=
  dictInsert filename [CsvLine.header] files

/-- CSVExporter._append_csv_chunk: no-op on empty data, otherwise append the
rows (append mode creates the file when absent); never writes a header. -/
def appendCsvChunk (filename : String) (data : List Rec)
    (files : List (String × List CsvLine)) : List (String × List CsvLine) :=
  if data.isEmpty then files
  else
    dictInsert filename
      ((dictGet filename files).getD [] ++ data.map CsvLine.row) files

/-- CSVExporter.stream_export_data: initialize a fresh header-only file
unless resuming into an existing one, then append every nonempty chunk. -/
def streamExportDataCsv (filename : String) (chunks : List (List Rec))
    (isResuming : Bool) (files : List (String × List CsvLine)) :
    List (String × List CsvLine) :=
  let files1 :=
    if !isResuming || (dictGet filename files).isNone then
      initCsvFile filename files
    else files
  chunks.foldl (fun fs c => appendCsvChunk filename c fs) files1

/-- One fresh-start or resume cycle of the streaming CSV export of one
resource: the resuming flag it was started with and the chunks its stream
yielded before it ended or was interrupted. -/
structure CsvCycle where
  resuming : Bool
  chunks : List (List Rec)

/-- A whole sequence of fresh-start and resume cycles on one resource. -/
def runCsvCycles (filename : String) (cycles : List CsvCycle)
    (files : List (String × List CsvLine)) : List (String × List CsvLine) :=
  cycles.foldl
    (fun fs cyc => streamExportDataCsv filename cyc.chunks cyc.resuming fs)
    files

/-- Number of header lines in a CSV file. -/
def countHeaders : List CsvLine → Nat
  | [] => 0
  | .header :: rest => countHeaders rest + 1
  | .row _ :: rest => countHeaders rest

/-- Shape of the fetch function handed to export_endpoint_with_resume:
pagination-aware functions (start_page in their signature) receive the
checkpoint callback; plain zero-argument functions do not. -/
inductive FetchKind where
  | paginated
  | simple
deriving DecidableEq, Repr

/-- World of the buffered CSV pipeline. -/
structure CsvWorld where
  cm : CMState
  files : List (String × List CsvLine)
deriving DecidableEq, Repr

/-- Result of one export_endpoint_with_resume call. -/
structure CsvStepResult where
  world : CsvWorld
  events : List Ev
  success : Bool
deriving DecidableEq, Repr

/-- export_endpoint_with_resume (the buffered CSV orchestrator): derives
append mode from the presence of a partial marker, fetches ALL the data
first — through get_paginated_data when the fetch function is
pagination-aware, in which case the checkpoint callback fires during the
fetch, before anything is written — and only afterwards hands the buffered
records to the CSV export function, then marks the endpoint complete and
clears its marker.  Fetch errors (TransportError, or the interrupt-path
UnboundLocalError) are swallowed into a failed step. -/
def exportEndpointWithResume (e : String) (kind : FetchKind)
    (outcome : FetchOutcome) (shutdown : Bool) (now : String)
    (w : CsvWorld) : CsvStepResult :=
  if shutdown then ⟨w, [], false⟩
  else if isEndpointComplete e w.cm then ⟨w, [], true⟩
  else
    let appendMode := (getPartialProgress e w.cm).isSome
    match outcome with
    | .transportError => ⟨w, [.fetch e], false⟩
    | .interrupted => ⟨w, [.fetch e], false⟩
    | .success data =>
        let total := data.length
        let warnEvs :=
          if total == 50000 && decide ((50000 : Nat) < 50000) then [Ev.warn e]
          else []
        let fetched :=
          match kind with
          | .paginated =>
              if data.isEmpty then (w.cm, [Ev.fetch e])
              else
                let cb := checkpointCallback shutdown now e 1 total w.cm
                (cb.1, [Ev.fetch e] ++ warnEvs ++ cb.2)
          | .simple => (w.cm, [Ev.fetch e])
        if shutdown then ⟨⟨fetched.1, w.files⟩, fetched.2, false⟩
        else
          let files1 := writeCsv (e ++ ".csv") data appendMode w.files
          let writeEvs := if data.isEmpty then [] else [Ev.append e data]
          let cm2 := clearPartialProgress e now (markEndpointComplete e now fetched.1)
          ⟨⟨cm2, files1⟩, fetched.2 ++ writeEvs, true⟩

/-! ## Basic lemmas about the dict model and the checkpoint manager -/

theorem dictGet_dictErase_self {α : Type} (k : String) (d : List (String × α)) :
    dictGet k (dictErase k d) = none := by
  induction d with
  | nil => rfl
  | cons kv rest ih =>
      obtain ⟨k2, v2⟩ := kv
      by_cases h : k2 = k
      · simpa [dictErase, h] using ih
      · simp [dictErase, dictGet, h, ih]

theorem dictGet_dictInsert_self {α : Type} (k : String) (v : α)
    (d : List (String × α)) : dictGet k (dictInsert k v d) = some v := by
  induction d with
  | nil => simp [dictInsert, dictGet]
  | cons kv rest ih =>
      obtain ⟨k2, v2⟩ := kv
      by_cases h : k2 = k <;> simp [dictInsert, dictGet, h, ih]

theorem dictGet_dictInsert_ne {α : Type} (k ik : String) (v : α)
    (d : List (String × α)) (h : ik ≠ k) :
    dictGet k (dictInsert ik v d) = dictGet k d := by
  induction d with
  | nil => simp [dictInsert, dictGet, h]
  | cons kv rest ih =>
      obtain ⟨k2, v2⟩ := kv
      by_cases h2 : k2 = ik
      · subst h2
        simp [dictInsert, dictGet, h]
      · by_cases h3 : k2 = k
        · subst h3
          simp [dictInsert, dictGet, h2, Ne.symm h]
        · simp [dictInsert, dictGet, h2, h3, ih]

theorem completed_cmSave (now : String) (s : CMState) :
    (cmSave now s).mem.completedEndpoints = s.mem.completedEndpoints := rfl

theorem mem_completed_markEndpointComplete_self (e now : String) (s : CMState) :
    e ∈ (markEndpointComplete e now s).mem.completedEndpoints := by
  unfold markEndpointComplete
  by_cases h : e ∈ s.mem.completedEndpoints
  · simpa [h]
  · simp [h, cmSave]

theorem mem_completed_markEndpointComplete_mono (a e now : String) (s : CMState)
    (h : a ∈ s.mem.completedEndpoints) :
    a ∈ (markEndpointComplete e now s).mem.completedEndpoints := by
  unfold markEndpointComplete
  by_cases h2 : e ∈ s.mem.completedEndpoints
  · simpa [h2]
  · simp [h2, cmSave]
    exact Or.inl h

theorem completed_savePartialProgress (e : String) (p : Progress)
    (now : String) (s : CMState) :
    (savePartialProgress e p now s).mem.completedEndpoints =
      s.mem.completedEndpoints := rfl

theorem completed_clearPartialProgress (e now : String) (s : CMState) :
    (clearPartialProgress e now s).mem.completedEndpoints =
      s.mem.completedEndpoints := by
  unfold clearPartialProgress
  by_cases h : (dictGet e s.mem.partialProgress).isSome <;> simp [h, cmSave]

theorem completed_markExportComplete (now : String) (s : CMState) :
    (markExportComplete now s).mem.completedEndpoints =
      s.mem.completedEndpoints := rfl

theorem partialProgress_markEndpointComplete (e now : String) (s : CMState) :
    (markEndpointComplete e now s).mem.partialProgress =
      s.mem.partialProgress := by
  unfold markEndpointComplete
  by_cases h : e ∈ s.mem.completedEndpoints <;> simp [h, cmSave]

/-! ## C6 — checkpoint loading never fails the caller -/

/-- C6: loading a checkpoint is a total operation (every exception of the
read/parse step is handled inside _load_checkpoint): on an absent or
unparseable file it returns a freshly initialized record with no completed
endpoints, no partial progress and export_complete false, and on a parseable
file it returns that document. -/
theorem c6_loadCheckpoint_never_fails (now : String) (d : DiskFile) :
    ((d = DiskFile.absent ∨ d = DiskFile.invalid) →
      loadCheckpoint now d = createNewCheckpoint now ∧
      (loadCheckpoint now d).completedEndpoints = [] ∧
      (loadCheckpoint now d).partialProgress = [] ∧
      (loadCheckpoint now d).exportComplete = false) ∧
    (∀ c, d = DiskFile.valid c → loadCheckpoint now d = c) := by
  constructor
  · rintro (rfl | rfl) <;>
      simp [loadCheckpoint, fileExists, parseCheckpointFile, createNewCheckpoint]
  · rintro c rfl
    rfl

/-- Witness for C6 at concrete inputs: an unparseable file yields the empty
completed list; a parseable file is returned as is. -/
theorem c6_loadCheckpoint_never_fails_witness :
    (loadCheckpoint "t0" DiskFile.invalid).completedEndpoints = [] ∧
    loadCheckpoint "t0" (DiskFile.valid (createNewCheckpoint "t1")) =
      createNewCheckpoint "t1" :=
  ⟨((c6_loadCheckpoint_never_fails "t0" DiskFile.invalid).1 (Or.inr rfl)).2.1,
   (c6_loadCheckpoint_never_fails "t0"
      (DiskFile.valid (createNewCheckpoint "t1"))).2 _ rfl⟩

/-! ## C7 — mark_endpoint_complete is idempotent, no duplicates -/

theorem nodup_completed_applyOp (op : CMOp) (s : CMState)
    (h : s.mem.completedEndpoints.Nodup) :
    (applyOp op s).mem.completedEndpoints.Nodup := by
  cases op with
  | markComplete e now =>
      simp only [applyOp]
      unfold markEndpointComplete
      by_cases he : e ∈ s.mem.completedEndpoints
      · simpa [he]
      · simp [he, cmSave, List.nodup_append, h]
  | savePartial e p now => simpa [applyOp, savePartialProgress, cmSave] using h
  | clearPartial e now =>
      simpa [applyOp, completed_clearPartialProgress] using h
  | markExport now => simpa [applyOp, markExportComplete, cmSave] using h

theorem nodup_completed_runOps (ops : List CMOp) (s : CMState)
    (h : s.mem.completedEndpoints.Nodup) :
    (runOps ops s).mem.completedEndpoints.Nodup := by
  induction ops generalizing s with
  | nil => simpa [runOps]
  | cons op rest ih => exact ih (applyOp op s) (nodup_completed_applyOp op s h)

/-- C7: marking an endpoint complete twice (at any two timestamps) yields
exactly the state — in memory and on disk — produced by marking it once,
and completed_endpoints never acquires duplicates under any sequence of
manager operations starting from a duplicate-free state. -/
theorem c7_markEndpointComplete_idempotent (s : CMState) (e now1 now2 : String) :
    markEndpointComplete e now2 (markEndpointComplete e now1 s) =
      markEndpointComplete e now1 s ∧
    (∀ ops : List CMOp, s.mem.completedEndpoints.Nodup →
      (runOps ops s).mem.completedEndpoints.Nodup) := by
  constructor
  · have hm := mem_completed_markEndpointComplete_self e now1 s
    conv_lhs => rw [markEndpointComplete]
    simp [hm]
  · intro ops h
    exact nodup_completed_runOps ops s h

/-- Witness for C7 at a concrete state: double-mark equals single mark on a
fresh manager, and the resulting completed list is duplicate-free. -/
theorem c7_markEndpointComplete_idempotent_witness :
    markEndpointComplete "outlets" "t2"
        (markEndpointComplete "outlets" "t1" (initManager "t0" DiskFile.absent)) =
      markEndpointComplete "outlets" "t1" (initManager "t0" DiskFile.absent) ∧
    (runOps [CMOp.markComplete "outlets" "t1"]
        (initManager "t0" DiskFile.absent)).mem.completedEndpoints.Nodup :=
  ⟨(c7_markEndpointComplete_idempotent (initManager "t0" DiskFile.absent)
      "outlets" "t1" "t2").1,
   (c7_markEndpointComplete_idempotent (initManager "t0" DiskFile.absent)
      "outlets" "t1" "t2").2 [CMOp.markComplete "outlets" "t1"] (by decide)⟩

/-! ## C1 — partial/complete mutual exclusion -/

/-- C1 counterexample: the claim that every reachable persisted checkpoint
state keeps each resource out of at least one of completed/partial is false.
Starting from a fresh manager, saving a partial marker for products and then
calling mark_endpoint_complete (exactly the first half of the orchestrator's
completion sequence) persists a state in which products sits in BOTH
completed_endpoints and partial_progress. -/
theorem c1_mutual_exclusion_counterexample :
    ("products" ∈ (runOps
        [CMOp.savePartial "products"
            { lastPage := 1, totalRecords := 4000, timestamp := "t1" } "t1",
         CMOp.markComplete "products" "t2"]
        (initManager "t0" DiskFile.absent)).mem.completedEndpoints) ∧
    (dictGet "products" (runOps
        [CMOp.savePartial "products"
            { lastPage := 1, totalRecords := 4000, timestamp := "t1" } "t1",
         CMOp.markComplete "products" "t2"]
        (initManager "t0" DiskFile.absent)).mem.partialProgress).isSome = true ∧
    (runOps
        [CMOp.savePartial "products"
            { lastPage := 1, totalRecords := 4000, timestamp := "t1" } "t1",
         CMOp.markComplete "products" "t2"]
        (initManager "t0" DiskFile.absent)).disk =
      DiskFile.valid (runOps
        [CMOp.savePartial "products"
            { lastPage := 1, totalRecords := 4000, timestamp := "t1" } "t1",
         CMOp.markComplete "products" "t2"]
        (initManager "t0" DiskFile.absent)).mem := by
  refine ⟨?_, rfl, rfl⟩
  decide

/-- C1 (amended): mutual exclusion holds only at the end of the
orchestrator's full completion sequence, not after mark_endpoint_complete
alone — after mark_endpoint_complete followed by clear_partial_progress, the
resource is in completed_endpoints and absent from partial_progress; in the
persisted window between the two calls it can be in both. -/
theorem c1_mark_then_clear_mutual_exclusion (s : CMState) (e now1 now2 : String) :
    e ∈ (clearPartialProgress e now2
          (markEndpointComplete e now1 s)).mem.completedEndpoints ∧
    dictGet e (clearPartialProgress e now2
          (markEndpointComplete e now1 s)).mem.partialProgress = none := by
  constructor
  · rw [completed_clearPartialProgress]
    exact mem_completed_markEndpointComplete_self e now1 s
  · set t := markEndpointComplete e now1 s with ht
    unfold clearPartialProgress
    by_cases h : (dictGet e t.mem.partialProgress).isSome
    · simp [h, cmSave, dictGet_dictErase_self]
    · simpa [h] using Option.not_isSome_iff_eq_none.mp h

/-! ## C2 — the exact-page-size warning is dead code -/

/-- C2 (code bug): with the monolithic page_size of 50000 and a response of
exactly 50000 records, the suspicious-truncation warning does NOT fire (the
guard additionally requires page_size < 50000, which the client's own
assignment page_size := 50000 makes impossible), while the caller still
receives the batch with no error. -/
theorem streamPaginatedData_success (endpoint : String) (startPage : Nat)
    (hasCb : Bool) (data : List Rec) (h : data.isEmpty = false) :
    streamPaginatedData endpoint [] startPage hasCb (FetchOutcome.success data) =
      { batches := [data]
        callbackEvents := if hasCb then [(endpoint, 1, data.length)] else []
        warned := data.length == 50000 && decide ((50000 : Nat) < 50000)
        error := none } := by
  simp [streamPaginatedData, dictInsert, dictErase, dictGet, h]

theorem c2_exact_limit_warning_never_fires :
    (streamPaginatedData "inventory" [] 1 true
        (FetchOutcome.success (List.replicate 50000 0))).warned = false ∧
    (streamPaginatedData "inventory" [] 1 true
        (FetchOutcome.success (List.replicate 50000 0))).batches =
      [List.replicate 50000 0] ∧
    (streamPaginatedData "inventory" [] 1 true
        (FetchOutcome.success (List.replicate 50000 0))).error = none := by
  have h50 : (50000 : Nat) = 49999 + 1 := rfl
  have hne : (List.replicate 50000 (0 : Nat)).isEmpty = false := by
    rw [h50, List.replicate_succ]
    rfl
  have h := streamPaginatedData_success "inventory" 1 true
    (List.replicate 50000 0) hne
  refine ⟨?_, ?_, ?_⟩
  · rw [congrArg StreamResult.warned h,
      decide_eq_false (Nat.lt_irrefl 50000), Bool.and_false]
  · rw [h]
  · rw [h]

/-! ## C5 — interrupt during the in-flight request -/

/-- C5 (code bug): when the cancellation signal arrives while the HTTP
request is in flight and a checkpoint callback is supplied, the generator's
interrupt handler reads the still-unbound local total_records and raises
UnboundLocalError: the callback is never invoked and the KeyboardInterrupt
is not the exception that propagates. -/
theorem c5_interrupt_during_fetch_loses_progress :
    streamPaginatedData "products" [] 1 true FetchOutcome.interrupted =
      { batches := [], callbackEvents := [], warned := false
        error := some PyErr.unboundLocalError } := rfl

/-! ## C10 — the buffered fetch refines the streaming fetch -/

theorem foldl_append_eq_join {α : Type} (l : List (List α)) (acc : List α) :
    l.foldl (fun a page => a ++ page) acc = acc ++ l.flatten := by
  induction l generalizing acc with
  | nil => simp
  | cons x xs ih => simp [List.foldl_cons, ih]

/-- C10: get_paginated_data returns exactly the concatenation of the batches
yielded by stream_paginated_data called with the same arguments, fires the
same callback invocations, logs the same warning, and propagates the same
exception (returning no list exactly when the stream raised). -/
theorem c10_getPaginatedData_refines_stream (endpoint : String)
    (params : List (String × Nat)) (startPage : Nat) (hasCb : Bool)
    (outcome : FetchOutcome) :
    (getPaginatedData endpoint params startPage hasCb outcome).callbackEvents =
      (streamPaginatedData endpoint params startPage hasCb outcome).callbackEvents ∧
    (getPaginatedData endpoint params startPage hasCb outcome).warned =
      (streamPaginatedData endpoint params startPage hasCb outcome).warned ∧
    (getPaginatedData endpoint params startPage hasCb outcome).error =
      (streamPaginatedData endpoint params startPage hasCb outcome).error ∧
    (getPaginatedData endpoint params startPage hasCb outcome).records =
      (if (streamPaginatedData endpoint params startPage hasCb outcome).error
            = none then
        some (streamPaginatedData endpoint params startPage hasCb
            outcome).batches.flatten
      else none) := by
  refine ⟨rfl, rfl, rfl, ?_⟩
  unfold getPaginatedData
  cases h : (streamPaginatedData endpoint params startPage hasCb outcome).error
  · simp [h, foldl_append_eq_join]
  · simp [h]

/-! ## C3 — export_complete versus per-resource failures -/

/-- C3 counterexample: in the fresh 3-resource run where outlets and sales
succeed and products raises a TransportError, the run still ends with
export_complete = true (the claim requires it to be false because products
never reached COMPLETE). -/
theorem c3_export_complete_counterexample :
    ((exportAllData false
        (fun e => if e = "products" then FetchOutcome.transportError
                  else FetchOutcome.success [0])
        "t1" ["outlets", "products", "sales"]
        (freshJsonlWorld "t0")).1.cm.mem.exportComplete = true) ∧
    "products" ∉ (exportAllData false
        (fun e => if e = "products" then FetchOutcome.transportError
                  else FetchOutcome.success [0])
        "t1" ["outlets", "products", "sales"]
        (freshJsonlWorld "t0")).1.cm.mem.completedEndpoints := by
  decide

/-- C3 (amended): whenever the run loop finishes with no shutdown request,
export_all_data sets export_complete unconditionally — whether or not every
resource reached COMPLETE.  In the 3-resource scenario, the failed resource
is indeed absent from both completed_endpoints and partial_progress, but
export_complete ends up true, not false. -/
theorem c3_export_complete_set_unconditionally :
    (∀ (outcomes : String → FetchOutcome) (now : String)
        (endpoints : List String) (w : JsonlWorld),
      (exportAllData false outcomes now endpoints w).1.cm.mem.exportComplete =
        true) ∧
    ((exportAllData false
        (fun e => if e = "products" then FetchOutcome.transportError
                  else FetchOutcome.success [0])
        "t1" ["outlets", "products", "sales"]
        (freshJsonlWorld "t0")).1.cm.mem.completedEndpoints =
      ["outlets", "sales"] ∧
     dictGet "products" (exportAllData false
        (fun e => if e = "products" then FetchOutcome.transportError
                  else FetchOutcome.success [0])
        "t1" ["outlets", "products", "sales"]
        (freshJsonlWorld "t0")).1.cm.mem.partialProgress = none) := by
  constructor
  · intro outcomes now endpoints w
    simp [exportAllData, markExportComplete, cmSave]
  · constructor
    · decide
    · decide

/-! ## C9 — completed resources are never re-fetched or re-appended -/

theorem exportEndpointStreaming_complete_skip (e : String) (o : FetchOutcome)
    (sd : Bool) (now : String) (w : JsonlWorld)
    (h : isEndpointComplete e w.cm = true) :
    (exportEndpointStreaming e o sd now w).world = w ∧
    (exportEndpointStreaming e o sd now w).events = [] := by
  unfold exportEndpointStreaming
  cases sd
  · simp [h]
  · simp

theorem completed_mono_exportEndpointStreaming (a e : String) (o : FetchOutcome)
    (sd : Bool) (now : String) (w : JsonlWorld)
    (h : a ∈ w.cm.mem.completedEndpoints) :
    a ∈ (exportEndpointStreaming e o sd now w).world.cm.mem.completedEndpoints := by
  unfold exportEndpointStreaming
  cases sd
  · by_cases hc : isEndpointComplete e w.cm
    · simpa [hc]
    · cases o with
      | transportError => simpa [hc]
      | interrupted => simpa [hc]
      | success data =>
          by_cases hd : data.isEmpty
          · simp [hc, hd, completed_clearPartialProgress]
            exact mem_completed_markEndpointComplete_mono a e now w.cm h
          · simp [hc, hd, checkpointCallback, completed_clearPartialProgress]
            exact mem_completed_markEndpointComplete_mono a e now _ h
  · simpa

theorem files_other_exportEndpointStreaming (x e : String) (o : FetchOutcome)
    (sd : Bool) (now : String) (w : JsonlWorld) (hne : e ≠ x) :
    dictGet x (exportEndpointStreaming e o sd now w).world.files =
      dictGet x w.files := by
  unfold exportEndpointStreaming
  cases sd
  · by_cases hc : isEndpointComplete e w.cm
    · simp [hc]
    · cases o with
      | transportError => simp [hc]
      | interrupted => simp [hc]
      | success data =>
          by_cases hd : data.isEmpty
          · simp [hc, hd]
          · simp [hc, hd, appendJsonl, dictGet_dictInsert_ne x e _ _ hne]
  · simp

theorem events_endpoint_exportEndpointStreaming (e : String) (o : FetchOutcome)
    (sd : Bool) (now : String) (w : JsonlWorld) :
    ∀ ev ∈ (exportEndpointStreaming e o sd now w).events, evEndpoint ev = e := by
  unfold exportEndpointStreaming
  cases sd
  · by_cases hc : isEndpointComplete e w.cm
    · simp [hc]
    · cases o with
      | transportError => simp [hc, evEndpoint]
      | interrupted => simp [hc, evEndpoint]
      | success data =>
          by_cases hd : data.isEmpty
          · simp [hc, hd, evEndpoint]
          · intro ev hev
            simp [hc, hd, checkpointCallback] at hev
            rcases hev with rfl | rfl | rfl <;> rfl
  · simp

theorem fetchesOrAppends_of_ne (x : String) (ev : Ev)
    (h : evEndpoint ev ≠ x) : fetchesOrAppends x ev = false := by
  cases ev with
  | fetch e2 =>
      simp only [evEndpoint] at h
      simpa [fetchesOrAppends] using h
  | append e2 rs =>
      simp only [evEndpoint] at h
      simpa [fetchesOrAppends] using h
  | marker e2 p t => rfl
  | warn e2 => rfl

theorem runEndpoints_completed_untouched (outcomes : String → FetchOutcome)
    (now : String) (sd : Bool) (e : String) (endpoints : List String) :
    ∀ (w : JsonlWorld), isEndpointComplete e w.cm = true →
      dictGet e (runEndpoints sd outcomes now endpoints w).1.files =
        dictGet e w.files ∧
      (∀ ev ∈ (runEndpoints sd outcomes now endpoints w).2,
        fetchesOrAppends e ev = false) := by
  induction endpoints with
  | nil =>
      intro w h
      simp [runEndpoints]
  | cons e2 rest ih =>
      intro w h
      rw [runEndpoints]
      cases sd
      · simp only [Bool.false_eq_true, if_false]
        by_cases he2 : e2 = e
        · subst he2
          obtain ⟨hw, hev⟩ :=
            exportEndpointStreaming_complete_skip e2 (outcomes e2) false now w h
          obtain ⟨ih1, ih2⟩ :=
            ih (exportEndpointStreaming e2 (outcomes e2) false now w).world
              (by rw [hw]; exact h)
          refine ⟨by rw [ih1, hw], ?_⟩
          intro ev hmem
          simp only [hev, List.nil_append] at hmem
          exact ih2 ev hmem
        · have hcomp :
              isEndpointComplete e
                (exportEndpointStreaming e2 (outcomes e2) false now w).world.cm =
                true := by
            have hmem0 := of_decide_eq_true h
            exact decide_eq_true
              (completed_mono_exportEndpointStreaming e e2 (outcomes e2) false
                now w hmem0)
          obtain ⟨ih1, ih2⟩ :=
            ih (exportEndpointStreaming e2 (outcomes e2) false now w).world hcomp
          refine ⟨?_, ?_⟩
          · rw [ih1,
              files_other_exportEndpointStreaming e e2 (outcomes e2) false now w
                he2]
          · intro ev hmem
            rcases List.mem_append.mp hmem with hmem | hmem
            · exact fetchesOrAppends_of_ne e ev
                (by
                  rw [events_endpoint_exportEndpointStreaming e2 (outcomes e2)
                    false now w ev hmem]
                  exact he2)
            · exact ih2 ev hmem
      · simp

/-- C9: if a resource is already recorded complete in the checkpoint when a
run starts (or resumes), then across the whole run the orchestrator performs
no fetch and no append for that resource and its output file is unchanged. -/
theorem c9_completed_resource_unchanged (endpoints : List String)
    (outcomes : String → FetchOutcome) (now : String) (sd : Bool) (e : String)
    (w : JsonlWorld) (h : isEndpointComplete e w.cm = true) :
    dictGet e (exportAllData sd outcomes now endpoints w).1.files =
      dictGet e w.files ∧
    ∀ ev ∈ (exportAllData sd outcomes now endpoints w).2,
      fetchesOrAppends e ev = false := by
  obtain ⟨h1, h2⟩ := runEndpoints_completed_untouched outcomes now sd e
    endpoints w h
  unfold exportAllData
  cases sd
  · simpa using ⟨h1, h2⟩
  · simpa using ⟨h1, h2⟩

/-- Witness for C9: a world whose checkpoint already lists sales as complete
is untouched for sales by a fresh run over a two-endpoint plan. -/
theorem c9_completed_resource_unchanged_witness :
    dictGet "sales"
        (exportAllData false (fun _ => FetchOutcome.success [5]) "t2"
          ["sales", "outlets"]
          { cm := markEndpointComplete "sales" "t1"
              (initManager "t0" DiskFile.absent)
            files := [("sales", [9])] }).1.files =
      dictGet "sales"
        ({ cm := markEndpointComplete "sales" "t1"
              (initManager "t0" DiskFile.absent)
           files := [("sales", [9])] } : JsonlWorld).files :=
  (c9_completed_resource_unchanged ["sales", "outlets"]
    (fun _ => FetchOutcome.success [5]) "t2" false "sales"
    { cm := markEndpointComplete "sales" "t1" (initManager "t0" DiskFile.absent)
      files := [("sales", [9])] } (by decide)).1

/-! ## C4 — marker/append ordering -/

/-- C4 counterexample: in the buffered CSV path with a pagination-aware
fetch function, the checkpoint callback fires inside get_paginated_data,
before the records are written, so a partial-progress marker is persisted
before the batch it references has been appended to the output file. -/
theorem c4_marker_before_append_counterexample :
    markersAfterAppends
      (exportEndpointWithResume "outlets" FetchKind.paginated
          (FetchOutcome.success [7]) false "t1"
          { cm := initManager "t0" DiskFile.absent, files := [] }).events [] =
      false := by
  decide

/-- C4 (amended): in the streaming JSONL path every persisted
partial-progress marker is preceded by the durable append of the batch it
references; but in the buffered CSV path, whenever the fetch function is
pagination-aware (so the checkpoint callback is threaded into the fetch),
the endpoint is not yet complete and the fetch returns data, the marker is
written before the append. -/
theorem c4_streaming_ordered_buffered_not (e : String) (o : FetchOutcome)
    (sd : Bool) (now : String) (w : JsonlWorld) (e2 : String)
    (data : List Rec) (now2 : String) (w2 : CsvWorld) :
    markersAfterAppends (exportEndpointStreaming e o sd now w).events [] =
      true ∧
    (isEndpointComplete e2 w2.cm = false → data.isEmpty = false →
      markersAfterAppends
        (exportEndpointWithResume e2 FetchKind.paginated
            (FetchOutcome.success data) false now2 w2).events [] = false) := by
  constructor
  · unfold exportEndpointStreaming
    cases sd
    · by_cases hc : isEndpointComplete e w.cm
      · simp [hc, markersAfterAppends]
      · cases o with
        | transportError => simp [hc, markersAfterAppends]
        | interrupted => simp [hc, markersAfterAppends]
        | success data2 =>
            by_cases hd : data2.isEmpty
            · simp [hc, hd, markersAfterAppends]
            · simp [hc, hd, checkpointCallback, markersAfterAppends]
    · simp [markersAfterAppends]
  · intro hc hd
    unfold exportEndpointWithResume
    simp [hc, hd, checkpointCallback, markersAfterAppends]

/-- Witness for C4's amended statement at concrete inputs: the streaming
path keeps the ordering; the buffered pagination-aware path breaks it. -/
theorem c4_streaming_ordered_buffered_not_witness :
    markersAfterAppends
        (exportEndpointStreaming "sales" (FetchOutcome.success [3]) false "t1"
          (freshJsonlWorld "t0")).events [] = true ∧
    markersAfterAppends
        (exportEndpointWithResume "registers" FetchKind.paginated
            (FetchOutcome.success [4]) false "t1"
            { cm := initManager "t0" DiskFile.absent, files := [] }).events [] =
      false :=
  ⟨(c4_streaming_ordered_buffered_not "sales" (FetchOutcome.success [3]) false
      "t1" (freshJsonlWorld "t0") "registers" [4] "t1"
      { cm := initManager "t0" DiskFile.absent, files := [] }).1,
   (c4_streaming_ordered_buffered_not "sales" (FetchOutcome.success [3]) false
      "t1" (freshJsonlWorld "t0") "registers" [4] "t1"
      { cm := initManager "t0" DiskFile.absent, files := [] }).2
     (by decide) (by decide)⟩

/-! ## C8 — exactly one header line across all resume cycles -/

theorem countHeaders_append (a b : List CsvLine) :
    countHeaders (a ++ b) = countHeaders a + countHeaders b := by
  induction a with
  | nil => simp [countHeaders]
  | cons x rest ih => cases x <;> simp [countHeaders, ih] <;> omega

theorem countHeaders_map_row (rs : List Rec) :
    countHeaders (rs.map CsvLine.row) = 0 := by
  induction rs with
  | nil => rfl
  | cons r rest ih => simpa [countHeaders]

theorem countHeaders_appendCsvChunk (filename : String) (c : List Rec)
    (files : List (String × List CsvLine)) (content : List CsvLine)
    (h : dictGet filename files = some content) :
    ∃ content2,
      dictGet filename (appendCsvChunk filename c files) = some content2 ∧
      countHeaders content2 = countHeaders content := by
  unfold appendCsvChunk
  by_cases hc : c.isEmpty
  · exact ⟨content, by simpa [hc], rfl⟩
  · refine ⟨content ++ c.map CsvLine.row, ?_, ?_⟩
    · simp [hc, dictGet_dictInsert_self, h]
    · simp [countHeaders_append, countHeaders_map_row]

theorem countHeaders_foldChunks (filename : String) (chunks : List (List Rec)) :
    ∀ (files : List (String × List CsvLine)) (content : List CsvLine),
      dictGet filename files = some content →
      ∃ content2,
        dictGet filename
            (chunks.foldl (fun fs c => appendCsvChunk filename c fs) files) =
          some content2 ∧
        countHeaders content2 = countHeaders content := by
  induction chunks with
  | nil =>
      intro files content h
      exact ⟨content, h, rfl⟩
  | cons c rest ih =>
      intro files content h
      obtain ⟨c1, h1, h2⟩ := countHeaders_appendCsvChunk filename c files content h
      obtain ⟨c2, h3, h4⟩ := ih _ _ h1
      exact ⟨c2, by simpa [List.foldl_cons] using h3, by omega⟩

theorem countHeaders_streamExportDataCsv (filename : String)
    (chunks : List (List Rec)) (r : Bool)
    (files : List (String × List CsvLine))
    (h : ∀ content, dictGet filename files = some content →
      countHeaders content = 1) :
    ∃ content2,
      dictGet filename (streamExportDataCsv filename chunks r files) =
        some content2 ∧
      countHeaders content2 = 1 := by
  unfold streamExportDataCsv
  by_cases hcond : (!r || (dictGet filename files).isNone) = true
  · rw [if_pos hcond]
    obtain ⟨c2, h1, h2⟩ := countHeaders_foldChunks filename chunks
      (initCsvFile filename files) [CsvLine.header]
      (by simp [initCsvFile, dictGet_dictInsert_self])
    exact ⟨c2, h1, by simpa [countHeaders] using h2⟩
  · rw [if_neg hcond]
    have hsome : (dictGet filename files).isSome = true := by
      by_cases hs : (dictGet filename files).isSome = true
      · exact hs
      · exfalso
        apply hcond
        have hn : (dictGet filename files).isNone = true := by
          cases hval : dictGet filename files
          · rfl
          · rw [hval] at hs
            exact absurd rfl hs
        simp [hn]
    obtain ⟨content, hcontent⟩ := Option.isSome_iff_exists.mp hsome
    obtain ⟨c2, h1, h2⟩ := countHeaders_foldChunks filename chunks files
      content hcontent
    exact ⟨c2, h1, by rw [h2]; exact h content hcontent⟩

theorem runCsvCycles_header_invariant (filename : String) :
    ∀ (cycles : List CsvCycle) (files : List (String × List CsvLine)),
      (∀ content, dictGet filename files = some content →
        countHeaders content = 1) →
      cycles = [] ∨
      ∃ content,
        dictGet filename (runCsvCycles filename cycles files) = some content ∧
        countHeaders content = 1 := by
  intro cycles
  induction cycles with
  | nil =>
      intro files h
      exact Or.inl rfl
  | cons cyc rest ih =>
      intro files h
      right
      obtain ⟨c1, h1, h2⟩ := countHeaders_streamExportDataCsv filename
        cyc.chunks cyc.resuming files h
      have hP : ∀ content,
          dictGet filename
              (streamExportDataCsv filename cyc.chunks cyc.resuming files) =
            some content → countHeaders content = 1 := by
        intro content hc
        rw [h1] at hc
        cases hc
        exact h2
      rcases ih (streamExportDataCsv filename cyc.chunks cyc.resuming files) hP
        with hrest | ⟨c2, h3, h4⟩
      · subst hrest
        exact ⟨c1, by simpa [runCsvCycles] using h1, h2⟩
      · exact ⟨c2, by simpa [runCsvCycles, List.foldl_cons] using h3, h4⟩

/-- C8: starting from an absent output file, any nonempty sequence of
fresh-start and resume cycles of the streaming CSV writer leaves the
resource's file existing with exactly one header line: the header is written
only when a cycle initializes the file (not resuming, or no file yet), and
chunk appends never write one. -/
theorem c8_exactly_one_header (filename : String) (cycles : List CsvCycle)
    (h : cycles ≠ []) :
    ∃ content,
      dictGet filename (runCsvCycles filename cycles []) = some content ∧
      countHeaders content = 1 := by
  rcases runCsvCycles_header_invariant filename cycles []
      (by intro content hc; cases hc) with hnil | hgood
  · exact absurd hnil h
  · exact hgood

/-- Witness for C8: a fresh cycle with two chunks followed by a resume cycle
with one chunk yields a file with exactly one header. -/
theorem c8_exactly_one_header_witness :
    ∃ content,
      dictGet "sales.csv"
          (runCsvCycles "sales.csv"
            [{ resuming := false, chunks := [[1], [2]] },
             { resuming := true, chunks := [[3]] }] []) =
        some content ∧
      countHeaders content = 1 :=
  c8_exactly_one_header "sales.csv"
    [{ resuming := false, chunks := [[1], [2]] },
     { resuming := true, chunks := [[3]] }]
    (by simp)

end BCPWarehouse
